import Mathlib

/-!
Verification of the batch ingestion pipeline of the Amazon-SP-API repository.

The Lean definitions below are shallow embeddings of the Python source:
* `flushStep` / `paginate` / `processPages` model the buffer-and-flush
  pagination loop of `BatchProcessor.process_orders` /
  `BatchProcessor.process_inventory` (sp_api/utils/batch_processor.py).
* `append_data_run` / `replace_data_run` model
  `StagingHandler.append_data` / `StagingHandler.replace_data`
  (sp_api/utils/sql_staging_definitions.py), with the staging, archive and
  ProcessingControl tables carried as explicit state.
* `retryGo` / `retryRun` model the inline retry loop of the fetch calls.
* `RateLimiter.acquire` models sp_api/utils/rate_limiter.py with time as ℚ.
-/

deriving instance DecidableEq for Except

namespace SpApi

/-- State of the pagination loop: the accumulation buffer (`orders_buffer` /
`inventory_buffer`) and the batches flushed so far. -/
structure BatchState (α : Type) where
  buffer : List α
  batches : List (List α)
deriving DecidableEq

/-- One iteration of the pagination loop body for one fetched page:
`buffer.extend(page)`, then a single `if len(buffer) >= batch_size` flush of
`buffer[:batch_size]`, keeping `buffer[batch_size:]`. -/
def flushStep (B : Nat) (st : BatchState α) (page : List α) : BatchState α :=
  let buf := st.buffer ++ page
  if B ≤ buf.length then
    ⟨buf.drop B, st.batches ++ [buf.take B]⟩
  else
    ⟨buf, st.batches⟩

/-- The pagination loop over the pages of one chunk, starting from an empty
buffer. -/
def paginate (B : Nat) (pages : List (List α)) : BatchState α :=
  pages.foldl (flushStep B) ⟨[], []⟩

/-- Batches emitted by one chunk's pagination loop: the mid-stream flushes,
then (`if orders_buffer:`) a trailing flush of the whole leftover buffer. -/
def processPages (B : Nat) (pages : List (List α)) : List (List α) :=
  if (paginate B pages).buffer.isEmpty then (paginate B pages).batches
  else (paginate B pages).batches ++ [(paginate B pages).buffer]

theorem foldl_flushStep_length (B : Nat) (pages : List (List α)) :
    ∀ st : BatchState α, (∀ b ∈ st.batches, b.length = B) →
      ∀ b ∈ (pages.foldl (flushStep B) st).batches, b.length = B := by
  induction pages with
  | nil => intro st h; exact h
  | cons p ps ih =>
    intro st h
    refine ih _ ?_
    intro b hb
    by_cases hc : B ≤ (st.buffer ++ p).length
    · simp only [flushStep, hc, if_pos] at hb
      rcases List.mem_append.mp hb with hb | hb
      · exact h b hb
      · have hbeq : b = (st.buffer ++ p).take B := List.mem_singleton.mp hb
        subst hbeq
        rw [List.length_take]
        exact Nat.min_eq_left hc
    · simp only [flushStep, hc, if_neg, not_false_iff] at hb
      exact h b hb

theorem foldl_flushStep_flatten (B : Nat) (pages : List (List α)) :
    ∀ st : BatchState α,
      (pages.foldl (flushStep B) st).batches.flatten ++
        (pages.foldl (flushStep B) st).buffer
      = st.batches.flatten ++ st.buffer ++ pages.flatten := by
  induction pages with
  | nil => intro st; simp
  | cons p ps ih =>
    intro st
    rw [List.foldl_cons, ih]
    by_cases hc : B ≤ (st.buffer ++ p).length
    · simp only [flushStep, hc, if_pos]
      simp [List.take_append_drop, List.append_assoc]
    · simp only [flushStep, hc, if_neg, not_false_iff]
      simp [List.append_assoc]

theorem processPages_flatten (B : Nat) (pages : List (List α)) :
    (processPages B pages).flatten = pages.flatten := by
  have h := foldl_flushStep_flatten B pages ⟨[], []⟩
  by_cases hb : (paginate B pages).buffer.isEmpty
  · simp only [processPages, if_pos hb]
    rw [List.isEmpty_iff] at hb
    simp only [paginate] at hb h ⊢
    simpa [hb] using h
  · simp only [processPages, if_neg hb]
    simp only [paginate] at h ⊢
    simpa using h

/-- C1 counterexample: with batch size 2 and a single page of 5 records, the
pagination loop flushes once (a batch of 2) and then the trailing flush emits
the whole 3-record leftover buffer, so a batch exceeds the configured size. -/
theorem batch_size_bound_counterexample :
    ¬ (∀ b ∈ processPages 2 [[(1 : Nat), 2, 3, 4, 5]], b.length ≤ 2) := by
  decide

/-- C1 (amended): within one chunk's pagination loop with batch size `B ≥ 1`,
every emitted batch except the last has exactly `B` records, every emitted
batch is nonempty, and a nonempty record stream emits at least one batch.
The last batch is not bounded by `B`: the trailing flush emits the entire
leftover buffer. -/
theorem processPages_batch_sizes (B : Nat) (hB : 1 ≤ B) (pages : List (List α)) :
    (∀ b ∈ (processPages B pages).dropLast, b.length = B)
    ∧ (∀ b ∈ processPages B pages, b ≠ [])
    ∧ (pages.flatten ≠ [] → processPages B pages ≠ []) := by
  have hmid : ∀ b ∈ (paginate B pages).batches, b.length = B :=
    foldl_flushStep_length B pages ⟨[], []⟩ (by simp)
  refine ⟨?_, ?_, ?_⟩
  · intro b hb
    by_cases hbuf : (paginate B pages).buffer.isEmpty
    · simp only [processPages, if_pos hbuf] at hb
      exact hmid b (List.dropLast_sublist _ |>.mem hb)
    · simp only [processPages, if_neg hbuf] at hb
      rw [List.dropLast_concat] at hb
      exact hmid b hb
  · intro b hb
    by_cases hbuf : (paginate B pages).buffer.isEmpty
    · simp only [processPages, if_pos hbuf] at hb
      have hlen := hmid b hb
      intro hnil
      subst hnil
      simp at hlen
      omega
    · simp only [processPages, if_neg hbuf] at hb
      rcases List.mem_append.mp hb with hb | hb
      · have hlen := hmid b hb
        intro hnil
        subst hnil
        simp at hlen
        omega
      · have hbeq : b = (paginate B pages).buffer := List.mem_singleton.mp hb
        subst hbeq
        intro hnil
        rw [hnil] at hbuf
        simp at hbuf
  · intro hjoin hnil
    have h2 := processPages_flatten B pages
    rw [hnil] at h2
    simp only [List.flatten_nil] at h2
    exact hjoin h2.symm

/-- C1 witness: instantiation of `processPages_batch_sizes` at `B = 2` with one
page of three records. -/
theorem processPages_batch_sizes_witness :
    (∀ b ∈ (processPages 2 [[(1 : Nat), 2, 3]]).dropLast, b.length = 2)
    ∧ (∀ b ∈ processPages 2 [[(1 : Nat), 2, 3]], b ≠ [])
    ∧ (([[(1 : Nat), 2, 3]] : List (List Nat)).flatten ≠ [] →
        processPages 2 [[(1 : Nat), 2, 3]] ≠ []) :=
  processPages_batch_sizes 2 (by decide) [[(1 : Nat), 2, 3]]

/-- A fetched record: a Python dict of field name to scalar value, modeled as
an association list. -/
structure Record where
  fields : List (String × String)
deriving DecidableEq

/-- Python `record.get(key)`: the value bound to `key`, or `None`. -/
def Record.get (r : Record) (k : String) : Option String :=
  (r.fields.find? (fun p => p.1 == k)).map (fun p => p.2)

/-- A row of a `[stage].[SP_API_*]` table as written by `append_data` /
`replace_data`: the value stored in the key column, the serialized payload
(`json.dumps(record)`, modeled as the record itself), the owning batch id
(uuid, modeled as `Nat`) and the validation status. -/
structure StagingRow where
  keyCol : Option String
  raw : Record
  batchId : Nat
  status : String
deriving DecidableEq

/-- A row of `[stage].[ProcessingControl]`. `lastProcessedDate` and
`recordsProcessed` are NULL until `record_processing_complete` fills them. -/
structure ControlEntry where
  dataType : String
  lastBatchId : Nat
  lastProcessedDate : Option Int
  recordsProcessed : Option Nat
  status : String
deriving DecidableEq

/-- The staging-store state for one logical table: its staging rows, its
archive rows, and the ProcessingControl ledger. -/
structure TableState where
  staging : List StagingRow
  archive : List StagingRow
  control : List ControlEntry
deriving DecidableEq

/-- The control row inserted by `record_processing_start`:
Status=IN_PROGRESS, dates and counts still NULL. -/
def startEntry (dataType : String) (batchId : Nat) : ControlEntry :=
  ⟨dataType, batchId, none, none, "IN_PROGRESS"⟩

/-- The update applied by `record_processing_complete`. -/
def completeEntry (lpd : Int) (n : Nat) (status : String)
    (c : ControlEntry) : ControlEntry :=
  { c with status := status, lastProcessedDate := some lpd,
           recordsProcessed := some n }

/-- UPDATE of the control row with the given Id (modeled as list index). -/
def modifyIdx (f : α → α) : Nat → List α → List α
  | _, [] => []
  | 0, a :: as => f a :: as
  | n + 1, a :: as => a :: modifyIdx f n as

/-- The business key column used for dedup in `append_data`:
Orders → AmazonOrderId, Inventory → SellerSKU, other tables → none. -/
def dedupKey (table : String) : Option String :=
  if table == "Orders" then some "AmazonOrderId"
  else if table == "Inventory" then some "SellerSKU"
  else none

/-- The staging row inserted for `record` by `append_data`: the key column
gets `record.get(dedup_key)`, ValidationStatus is PENDING. -/
def mkStagingRow (dk : Option String) (r : Record) (batchId : Nat) : StagingRow :=
  ⟨match dk with | some k => r.get k | none => none, r, batchId, "PENDING"⟩

/-- Result dict of `append_data`. -/
structure AppendResult where
  batch_id : Nat
  records_processed : Nat
  duplicates_skipped : Nat
deriving DecidableEq

/-- Result dict of `replace_data`. -/
structure ReplaceResult where
  batch_id : Nat
  records_processed : Nat
deriving DecidableEq

/-- `StagingHandler.append_data`: write an IN_PROGRESS control row, snapshot
the distinct existing key-column values, drop incoming records whose key is
already in that snapshot, insert the rest as PENDING rows tagged with the
fresh batch id, then mark the control row SUCCESS with
RecordsProcessed = number inserted.  `fail = some e` injects an exception
raised during steps 2-4 (after the IN_PROGRESS row is written); the insert
loop commits once at the end on its own connection, so a failure leaves the
staging rows unchanged, and the except branch marks the control row ERROR
with RecordsProcessed = 0 and re-raises `e`. -/
def append_data_run (st : TableState) (data : List Record) (table : String)
    (lpd : Int) (batchId : Nat) (fail : Option String) :
    TableState × Except String AppendResult :=
  let controlId := st.control.length
  let ctl1 := st.control ++ [startEntry table batchId]
  match fail with
  | some e =>
      ({ st with control := modifyIdx (completeEntry lpd 0 "ERROR") controlId ctl1 },
       Except.error e)
  | none =>
      let newData : List Record :=
        match dedupKey table with
        | some k =>
            let existingKeys := st.staging.map (fun row => row.keyCol)
            data.filter (fun r => decide (¬ r.get k ∈ existingKeys))
        | none => data
      let rows := newData.map (fun r => mkStagingRow (dedupKey table) r batchId)
      ({ st with staging := st.staging ++ rows,
                 control := modifyIdx (completeEntry lpd newData.length "SUCCESS")
                   controlId ctl1 },
       Except.ok ⟨batchId, newData.length, data.length - newData.length⟩)

/-- Columns of the `[stage].[SP_API_*]` tables, from STAGING_SCHEMAS. -/
def stagingTableColumns (table : String) : List String :=
  if table == "Orders" then
    ["StagingId", "AmazonOrderId", "RawData", "ProcessedDate",
     "ValidationStatus", "ValidationMessage", "IsDuplicate", "BatchId",
     "InsertedAt"]
  else if table == "OrderItems" then
    ["StagingId", "AmazonOrderId", "ASIN", "RawData", "ProcessedDate",
     "ValidationStatus", "ValidationMessage", "IsDuplicate", "BatchId",
     "InsertedAt"]
  else if table == "Inventory" then
    ["StagingId", "SellerSKU", "ASIN", "RawData", "ProcessedDate",
     "ValidationStatus", "ValidationMessage", "IsDuplicate", "BatchId",
     "InsertedAt"]
  else []

/-- Columns of the `[archive].[SP_API_*]` tables, from ARCHIVE_SCHEMAS; only
Orders and Inventory have archive tables. -/
def archiveTableColumns (table : String) : List String :=
  if table == "Orders" then
    ["ArchiveId", "OriginalId", "AmazonOrderId", "RawData", "ProcessedDate",
     "BatchId", "ArchivedAt"]
  else if table == "Inventory" then
    ["ArchiveId", "OriginalId", "SellerSKU", "ASIN", "RawData",
     "ProcessedDate", "BatchId", "ArchivedAt"]
  else []

/-- Whether `archive_data`'s hardcoded SQL compiles against the table's
schemas: its INSERT...SELECT names AmazonOrderId (and the other listed
columns) in both the staging and the archive table of `table`.  True only
for Orders: the Inventory tables key on SellerSKU and have no AmazonOrderId
column, so `archive_data('Inventory')` raises an invalid-column error. -/
def archiveDataValid (table : String) : Bool :=
  (["StagingId", "AmazonOrderId", "RawData", "ProcessedDate", "BatchId"].all
    (fun c => (stagingTableColumns table).contains c))
  && (["OriginalId", "AmazonOrderId", "RawData", "ProcessedDate", "BatchId"].all
    (fun c => (archiveTableColumns table).contains c))

/-- Whether the hardcoded staging INSERT of `replace_data` (columns
AmazonOrderId, RawData, BatchId, ValidationStatus) compiles against the
table's staging schema.  False for Inventory (no AmazonOrderId column). -/
def replaceInsertValid (table : String) : Bool :=
  ["AmazonOrderId", "RawData", "BatchId", "ValidationStatus"].all
    (fun c => (stagingTableColumns table).contains c)

/-- The error raised when a hardcoded SQL statement names a column absent
from the target table's schema. -/
def invalidColumnError : String := "Invalid column name AmazonOrderId"

/-- `StagingHandler.replace_data`: write an IN_PROGRESS control row, archive
and delete every current staging row (`archive_data(table)` with a NULL
batch filter copies all rows to the archive table and deletes them), insert
every incoming record as a PENDING row (no dedup; the key column gets
`record.get('AmazonOrderId')`), then mark the control row SUCCESS with
RecordsProcessed = batch size.  Both `archive_data` and the insert hardcode
an AmazonOrderId column, so on a table whose schemas lack it (Inventory) the
protocol raises before writing: `archive_data`'s connection never commits,
leaving staging unchanged, and the except branch marks the control row ERROR
with RecordsProcessed = 0.  `fail = some (archived, e)` additionally injects
an external exception after the IN_PROGRESS row: `archived` says whether the
archive-and-delete step (which commits on its own connection) completed
before the failure; the except branch behaves as above and re-raises `e`. -/
def replace_data_run (st : TableState) (data : List Record) (table : String)
    (lpd : Int) (batchId : Nat) (fail : Option (Bool × String)) :
    TableState × Except String ReplaceResult :=
  let controlId := st.control.length
  let ctl1 := st.control ++ [startEntry table batchId]
  match fail with
  | some (archived, e) =>
      let stFail :=
        if archived then
          { st with staging := [], archive := st.archive ++ st.staging }
        else st
      ({ stFail with control := modifyIdx (completeEntry lpd 0 "ERROR") controlId ctl1 },
       Except.error e)
  | none =>
      if archiveDataValid table then
        if replaceInsertValid table then
          let rows := data.map (fun r =>
            (⟨r.get "AmazonOrderId", r, batchId, "PENDING"⟩ : StagingRow))
          ({ st with staging := rows,
                     archive := st.archive ++ st.staging,
                     control := modifyIdx (completeEntry lpd data.length "SUCCESS")
                       controlId ctl1 },
           Except.ok ⟨batchId, data.length⟩)
        else
          ({ st with staging := [], archive := st.archive ++ st.staging,
                     control := modifyIdx (completeEntry lpd 0 "ERROR") controlId ctl1 },
           Except.error invalidColumnError)
      else
        ({ st with control := modifyIdx (completeEntry lpd 0 "ERROR") controlId ctl1 },
         Except.error invalidColumnError)

theorem modifyIdx_concat (f : α → α) (l : List α) (x : α) :
    modifyIdx f l.length (l ++ [x]) = l ++ [f x] := by
  induction l with
  | nil => rfl
  | cons a as ih => simp [modifyIdx, ih]

theorem replace_data_run_valid (st : TableState) (data : List Record)
    (table : String) (lpd : Int) (bid : Nat)
    (h1 : archiveDataValid table = true) (h2 : replaceInsertValid table = true) :
    replace_data_run st data table lpd bid none =
      ({ st with
           staging := data.map (fun r =>
             (⟨r.get "AmazonOrderId", r, bid, "PENDING"⟩ : StagingRow)),
           archive := st.archive ++ st.staging,
           control := modifyIdx (completeEntry lpd data.length "SUCCESS")
             st.control.length (st.control ++ [startEntry table bid]) },
       Except.ok ⟨bid, data.length⟩) := by
  unfold replace_data_run
  simp only [h1, h2, if_true]

theorem replace_data_run_invalid_archive (st : TableState) (data : List Record)
    (table : String) (lpd : Int) (bid : Nat)
    (h1 : archiveDataValid table = false) :
    replace_data_run st data table lpd bid none =
      ({ st with
           control := modifyIdx (completeEntry lpd 0 "ERROR")
             st.control.length (st.control ++ [startEntry table bid]) },
       Except.error invalidColumnError) := by
  unfold replace_data_run
  simp only [h1, Bool.false_eq_true, if_false]

theorem replace_data_run_invalid_insert (st : TableState) (data : List Record)
    (table : String) (lpd : Int) (bid : Nat)
    (h1 : archiveDataValid table = true) (h2 : replaceInsertValid table = false) :
    replace_data_run st data table lpd bid none =
      ({ st with
           staging := [],
           archive := st.archive ++ st.staging,
           control := modifyIdx (completeEntry lpd 0 "ERROR")
             st.control.length (st.control ++ [startEntry table bid]) },
       Except.error invalidColumnError) := by
  unfold replace_data_run
  simp only [h1, h2, if_true, Bool.false_eq_true, if_false]

/-- `replace_data(..., 'Inventory', ...)` can never succeed: `archive_data`'s
hardcoded AmazonOrderId column is absent from the Inventory staging and
archive schemas, so the protocol raises before any write, the run's control
row ends ERROR with RecordsProcessed = 0, and staging is unchanged. -/
theorem replace_inventory_always_fails (st : TableState) (data : List Record)
    (lpd : Int) (bid : Nat) :
    (replace_data_run st data "Inventory" lpd bid none).2
      = Except.error invalidColumnError
    ∧ (replace_data_run st data "Inventory" lpd bid none).1.control
      = st.control ++ [⟨"Inventory", bid, some lpd, some 0, "ERROR"⟩]
    ∧ (replace_data_run st data "Inventory" lpd bid none).1.staging
      = st.staging := by
  have h1 : archiveDataValid "Inventory" = false := rfl
  rw [replace_data_run_invalid_archive st data "Inventory" lpd bid h1]
  refine ⟨rfl, ?_, rfl⟩
  rw [modifyIdx_concat]
  rfl

/-- C5: for both protocols, an exception raised after the IN_PROGRESS control
row is written makes the in-flight control row end as Status=ERROR with
RecordsProcessed=0, and the original exception is re-raised unchanged. -/
theorem control_error_on_failure (st : TableState) (data : List Record)
    (table : String) (lpd : Int) (bid : Nat) (e : String) (archived : Bool) :
    (append_data_run st data table lpd bid (some e)).2 = Except.error e
    ∧ (append_data_run st data table lpd bid (some e)).1.control
        = st.control ++ [⟨table, bid, some lpd, some 0, "ERROR"⟩]
    ∧ (replace_data_run st data table lpd bid (some (archived, e))).2 = Except.error e
    ∧ (replace_data_run st data table lpd bid (some (archived, e))).1.control
        = st.control ++ [⟨table, bid, some lpd, some 0, "ERROR"⟩] := by
  refine ⟨rfl, ?_, rfl, ?_⟩
  · show modifyIdx (completeEntry lpd 0 "ERROR") st.control.length
      (st.control ++ [startEntry table bid]) = _
    rw [modifyIdx_concat]
    rfl
  · show modifyIdx (completeEntry lpd 0 "ERROR") st.control.length
      (st.control ++ [startEntry table bid]) = _
    rw [modifyIdx_concat]
    rfl

/-- An Orders staging row with AmazonOrderId "X". -/
def rowX : StagingRow := ⟨some "X", ⟨[("AmazonOrderId", "X")]⟩, 0, "PENDING"⟩

/-- An Orders table state whose archive already holds a row from an earlier
REPLACE cycle, alongside one current staging row. -/
def ordersPreState : TableState := ⟨[rowX], [rowX], []⟩

/-- A record with AmazonOrderId "Y". -/
def recY : Record := ⟨[("AmazonOrderId", "Y")]⟩

/-- C6 counterexample: a REPLACE on the Orders table (the one table where the
protocol's hardcoded SQL can succeed) whose archive already holds a row.
The run succeeds, but the archive is never purged, so staging + archive
after the run is pre-staging + pre-archive + batch size (3), not
pre-staging + batch size (2) as the claim states. -/
theorem replace_conservation_counterexample :
    (replace_data_run ordersPreState [recY] "Orders" 0 1 none).2
      = Except.ok ⟨1, 1⟩
    ∧ ¬ ((replace_data_run ordersPreState [recY] "Orders" 0 1 none).1.staging.length
        + (replace_data_run ordersPreState [recY] "Orders" 0 1 none).1.archive.length
        = ordersPreState.staging.length + 1) := by
  refine ⟨by decide, by decide⟩

/-- C6 (amended): whenever a REPLACE returns successfully, the staging count
equals exactly the new batch size, and staging + archive equals pre-run
staging + pre-run archive + the new batch size (every pre-run staging row is
moved to the archive, which is append-only across runs).  A successful
REPLACE is reachable only for the Orders table: on Inventory the hardcoded
AmazonOrderId column makes `replace_data` raise before any write, so the
run errors instead of succeeding. -/
theorem replace_conservation (st : TableState) (data : List Record)
    (table : String) (lpd : Int) (bid : Nat) :
    (∀ r, (replace_data_run st data table lpd bid none).2 = Except.ok r →
      (replace_data_run st data table lpd bid none).1.staging.length = data.length
      ∧ (replace_data_run st data table lpd bid none).1.staging.length
          + (replace_data_run st data table lpd bid none).1.archive.length
        = st.staging.length + st.archive.length + data.length)
    ∧ (replace_data_run st data "Inventory" lpd bid none).2
        = Except.error invalidColumnError := by
  constructor
  · intro r hok
    by_cases h1 : archiveDataValid table = true
    · by_cases h2 : replaceInsertValid table = true
      · rw [replace_data_run_valid st data table lpd bid h1 h2]
        constructor
        · simp
        · simp
          omega
      · rw [Bool.not_eq_true] at h2
        rw [replace_data_run_invalid_insert st data table lpd bid h1 h2] at hok
        exact Except.noConfusion hok
    · rw [Bool.not_eq_true] at h1
      rw [replace_data_run_invalid_archive st data table lpd bid h1] at hok
      exact Except.noConfusion hok
  · exact (replace_inventory_always_fails st data lpd bid).1

/-- C6 witness: a REPLACE of the one-record batch `[recY]` on the empty
Orders table succeeds, and the counts instantiate the amended claim. -/
theorem replace_conservation_witness :
    (replace_data_run ⟨[], [], []⟩ [recY] "Orders" 0 1 none).1.staging.length
      = [recY].length
    ∧ (replace_data_run ⟨[], [], []⟩ [recY] "Orders" 0 1 none).1.staging.length
        + (replace_data_run ⟨[], [], []⟩ [recY] "Orders" 0 1 none).1.archive.length
      = (⟨[], [], []⟩ : TableState).staging.length
          + (⟨[], [], []⟩ : TableState).archive.length + [recY].length :=
  (replace_conservation ⟨[], [], []⟩ [recY] "Orders" 0 1).1 ⟨1, 1⟩ (by decide)

theorem dedupKey_orders : dedupKey "Orders" = some "AmazonOrderId" := rfl

/-- Unfolding of the non-failing `append_data` protocol on the Orders table. -/
theorem append_data_run_orders (st : TableState) (data : List Record)
    (lpd : Int) (bid : Nat) :
    append_data_run st data "Orders" lpd bid none =
      ({ st with
           staging := st.staging ++
             (data.filter (fun r => decide (¬ r.get "AmazonOrderId" ∈
                 st.staging.map (fun row => row.keyCol)))).map
               (fun r => mkStagingRow (some "AmazonOrderId") r bid),
           control := modifyIdx
             (completeEntry lpd
               (data.filter (fun r => decide (¬ r.get "AmazonOrderId" ∈
                   st.staging.map (fun row => row.keyCol)))).length "SUCCESS")
             st.control.length (st.control ++ [startEntry "Orders" bid]) },
       Except.ok ⟨bid,
         (data.filter (fun r => decide (¬ r.get "AmazonOrderId" ∈
             st.staging.map (fun row => row.keyCol)))).length,
         data.length -
           (data.filter (fun r => decide (¬ r.get "AmazonOrderId" ∈
               st.staging.map (fun row => row.keyCol)))).length⟩) := rfl

/-- C2: APPEND run twice with the identical batch.  Under the claim's setting
(each record carries the business key, not yet present in the table), the
first run inserts each record of the batch exactly once, the second run
inserts nothing, and the second run reports `duplicates_skipped = len(batch)`
and `records_processed = 0`. -/
theorem append_data_idempotent (st : TableState) (data : List Record)
    (l1 l2 : Int) (b1 b2 : Nat)
    (h : ∀ r ∈ data,
      ¬ r.get "AmazonOrderId" ∈ st.staging.map (fun row => row.keyCol)) :
    (append_data_run st data "Orders" l1 b1 none).1.staging
      = st.staging ++ data.map (fun r => mkStagingRow (some "AmazonOrderId") r b1)
    ∧ (append_data_run (append_data_run st data "Orders" l1 b1 none).1
        data "Orders" l2 b2 none).1.staging
      = (append_data_run st data "Orders" l1 b1 none).1.staging
    ∧ (append_data_run (append_data_run st data "Orders" l1 b1 none).1
        data "Orders" l2 b2 none).2
      = Except.ok ⟨b2, 0, data.length⟩ := by
  have hfilter1 :
      data.filter (fun r => decide (¬ r.get "AmazonOrderId" ∈
        st.staging.map (fun row => row.keyCol))) = data :=
    List.filter_eq_self.mpr (fun r hr => decide_eq_true (h r hr))
  have hst1 : (append_data_run st data "Orders" l1 b1 none).1.staging
      = st.staging ++ data.map (fun r => mkStagingRow (some "AmazonOrderId") r b1) := by
    rw [append_data_run_orders, hfilter1]
  have hmem2 : ∀ r ∈ data, r.get "AmazonOrderId" ∈
      (append_data_run st data "Orders" l1 b1 none).1.staging.map
        (fun row => row.keyCol) := by
    intro r hr
    rw [hst1, List.map_append]
    refine List.mem_append.mpr (Or.inr ?_)
    rw [List.map_map]
    exact List.mem_map.mpr ⟨r, hr, rfl⟩
  have hfilter2 :
      data.filter (fun r => decide (¬ r.get "AmazonOrderId" ∈
        (append_data_run st data "Orders" l1 b1 none).1.staging.map
          (fun row => row.keyCol))) = [] := by
    rw [List.filter_eq_nil_iff]
    intro r hr
    simp only [decide_eq_true_eq, not_not]
    exact hmem2 r hr
  refine ⟨hst1, ?_, ?_⟩
  · rw [append_data_run_orders (append_data_run st data "Orders" l1 b1 none).1
      data l2 b2, hfilter2]
    simp
  · rw [append_data_run_orders (append_data_run st data "Orders" l1 b1 none).1
      data l2 b2, hfilter2]
    simp

/-- A record with AmazonOrderId "A". -/
def recA : Record := ⟨[("AmazonOrderId", "A")]⟩

/-- A record with AmazonOrderId "B". -/
def recB : Record := ⟨[("AmazonOrderId", "B")]⟩

/-- The staging store with empty staging, archive and control tables. -/
def emptyTable : TableState := ⟨[], [], []⟩

/-- C2 witness: the two-run APPEND of the single-record batch `[recA]`
against the empty Orders table. -/
theorem append_data_idempotent_witness :
    (append_data_run emptyTable [recA] "Orders" 0 0 none).1.staging
      = emptyTable.staging ++
          [recA].map (fun r => mkStagingRow (some "AmazonOrderId") r 0)
    ∧ (append_data_run (append_data_run emptyTable [recA] "Orders" 0 0 none).1
        [recA] "Orders" 0 1 none).1.staging
      = (append_data_run emptyTable [recA] "Orders" 0 0 none).1.staging
    ∧ (append_data_run (append_data_run emptyTable [recA] "Orders" 0 0 none).1
        [recA] "Orders" 0 1 none).2
      = Except.ok ⟨1, 0, 1⟩ :=
  append_data_idempotent emptyTable [recA] 0 0 0 1 (by decide)

/-- Aggregate statistics summed over the append results of the flushed
batches of one run, together with the running batch count. -/
structure AggStats where
  records_processed : Nat
  duplicates_skipped : Nat
  total_batches : Nat
deriving DecidableEq

/-- Flush each emitted batch to `append_data` in order (Orders table, APPEND
mode), threading the staging state and summing the per-batch statistics. -/
def runAppendBatches (st : TableState) (batches : List (List Record)) :
    TableState × AggStats :=
  batches.foldl
    (fun acc batch =>
      match (append_data_run acc.1 batch "Orders" 0 acc.2.total_batches none).2 with
      | Except.ok r =>
          ((append_data_run acc.1 batch "Orders" 0 acc.2.total_batches none).1,
           ⟨acc.2.records_processed + r.records_processed,
            acc.2.duplicates_skipped + r.duplicates_skipped,
            acc.2.total_batches + 1⟩)
      | Except.error _ => acc)
    (st, ⟨0, 0, 0⟩)

/-- C3 counterexample: batch_size 2, stream `[A, A, B]`, empty existing key
set.  The dedup filter only checks the point-in-time snapshot of keys read
before the batch insert, so the intra-batch duplicate in `[A, A]` is NOT
detected: the run does not produce the claimed stats
records_processed = 2, duplicates_skipped = 1, total_batches = 2. -/
theorem append_scenario_counterexample :
    ¬ (runAppendBatches emptyTable (processPages 2 [[recA, recA, recB]])).2
        = ⟨2, 1, 2⟩ := by
  decide

/-- C3 (amended): batch_size 2, stream `[A, A, B]`, empty existing key set.
The first flushed batch `[A, A]` inserts BOTH records (0 duplicates counted:
dedup only consults the pre-batch key snapshot), the second batch `[B]`
inserts 1, and the aggregate statistics are records_processed = 3,
duplicates_skipped = 0, total_batches = 2; staging ends with keys A, A, B. -/
theorem append_scenario_actual :
    (append_data_run emptyTable [recA, recA] "Orders" 0 0 none).2
        = Except.ok ⟨0, 2, 0⟩
    ∧ (runAppendBatches emptyTable (processPages 2 [[recA, recA, recB]])).2
        = ⟨3, 0, 2⟩
    ∧ (runAppendBatches emptyTable (processPages 2 [[recA, recA, recB]])).1.staging.map
        (fun row => row.keyCol)
        = [some "A", some "A", some "B"] := by
  refine ⟨by decide, by decide, by decide⟩

/-- Final outcome of the inline retry loop: success, the re-raised last
error, or no attempt at all (with `max_retries = 0` the while loop never
runs and the response variable is never bound). -/
inductive RetryOutcome (ε α : Type) where
  | ok (a : α)
  | err (e : ε)
  | noAttempt
deriving DecidableEq

/-- Observable trace of one run of the retry loop: the outcome, how many
times the operation was invoked, and the retry numbers logged (the loop
logs retry `k` and sleeps `2^k` seconds before invocation `k + 1`). -/
structure RetryTrace (ε α : Type) where
  outcome : RetryOutcome ε α
  invocations : Nat
  loggedRetries : List Nat
deriving DecidableEq

/-- The inline retry loop of the fetch calls
(`while retry_count < self.max_retries`): invoke the operation; on success
break; on failure increment `retry_count`, re-raise if it reached
`max_retries`, else log the retry, sleep `2^retry_count`, and loop.
`attempt` is the current 0-based attempt index (= `retry_count`), `fuel` is
`max_retries - attempt`. -/
def retryGo (op : Nat → Except ε α) : Nat → Nat → RetryTrace ε α
  | _, 0 => ⟨RetryOutcome.noAttempt, 0, []⟩
  | attempt, fuel + 1 =>
      match op attempt with
      | Except.ok a => ⟨RetryOutcome.ok a, 1, []⟩
      | Except.error e =>
          if fuel = 0 then ⟨RetryOutcome.err e, 1, []⟩
          else
            let t := retryGo op (attempt + 1) fuel
            ⟨t.outcome, t.invocations + 1, (attempt + 1) :: t.loggedRetries⟩

/-- One run of the retry loop with the configured `max_retries`. -/
def retryRun (maxRetries : Nat) (op : Nat → Except ε α) : RetryTrace ε α :=
  retryGo op 0 maxRetries

theorem retryGo_succ_ok (op : Nat → Except ε α) (attempt fuel : Nat) (a : α)
    (h : op attempt = Except.ok a) :
    retryGo op attempt (fuel + 1) = ⟨RetryOutcome.ok a, 1, []⟩ := by
  simp only [retryGo, h]

theorem retryGo_succ_err (op : Nat → Except ε α) (attempt fuel : Nat) (e : ε)
    (h : op attempt = Except.error e) :
    retryGo op attempt (fuel + 1) =
      if fuel = 0 then ⟨RetryOutcome.err e, 1, []⟩
      else ⟨(retryGo op (attempt + 1) fuel).outcome,
            (retryGo op (attempt + 1) fuel).invocations + 1,
            (attempt + 1) :: (retryGo op (attempt + 1) fuel).loggedRetries⟩ := by
  simp only [retryGo, h]

theorem retryGo_ok (op : Nat → Except ε α) (errOf : Nat → ε) (a : α) :
    ∀ (fuel attempt : Nat), 1 ≤ fuel →
      (∀ i, attempt ≤ i → i + 1 < attempt + fuel → op i = Except.error (errOf i)) →
      op (attempt + fuel - 1) = Except.ok a →
      retryGo op attempt fuel =
        ⟨RetryOutcome.ok a, fuel, List.range' (attempt + 1) (fuel - 1)⟩ := by
  intro fuel
  induction fuel with
  | zero => intro attempt h; omega
  | succ f ih =>
    intro attempt _ hfails hok
    match f, ih with
    | 0, _ =>
      have hok0 : op attempt = Except.ok a := by
        have harith : attempt + 1 - 1 = attempt := by omega
        rw [← harith]
        exact hok
      rw [retryGo_succ_ok op attempt 0 a hok0]
      simp
    | g + 1, ih =>
      have hfail0 : op attempt = Except.error (errOf attempt) :=
        hfails attempt (Nat.le_refl _) (by omega)
      have hrec := ih (attempt + 1) (by omega)
        (fun i h1 h2 => hfails i (by omega) (by omega))
        (by
          have harith : attempt + 1 + (g + 1) - 1 = attempt + (g + 1 + 1) - 1 := by omega
          rw [harith]
          exact hok)
      rw [retryGo_succ_err op attempt (g + 1) (errOf attempt) hfail0,
        if_neg (Nat.succ_ne_zero g), hrec]
      simp only [Nat.add_sub_cancel]
      rw [List.range'_succ]

theorem retryGo_err (op : Nat → Except ε α) (errOf : Nat → ε) :
    ∀ (fuel attempt : Nat), 1 ≤ fuel →
      (∀ i, attempt ≤ i → i < attempt + fuel → op i = Except.error (errOf i)) →
      retryGo op attempt fuel =
        ⟨RetryOutcome.err (errOf (attempt + fuel - 1)), fuel,
          List.range' (attempt + 1) (fuel - 1)⟩ := by
  intro fuel
  induction fuel with
  | zero => intro attempt h; omega
  | succ f ih =>
    intro attempt _ hfails
    match f, ih with
    | 0, _ =>
      have hfail0 : op attempt = Except.error (errOf attempt) :=
        hfails attempt (Nat.le_refl _) (by omega)
      rw [retryGo_succ_err op attempt 0 (errOf attempt) hfail0, if_pos rfl]
      simp
    | g + 1, ih =>
      have hfail0 : op attempt = Except.error (errOf attempt) :=
        hfails attempt (Nat.le_refl _) (by omega)
      have hrec := ih (attempt + 1) (by omega)
        (fun i h1 h2 => hfails i (by omega) (by omega))
      rw [retryGo_succ_err op attempt (g + 1) (errOf attempt) hfail0,
        if_neg (Nat.succ_ne_zero g), hrec]
      have harith : attempt + 1 + (g + 1) - 1 = attempt + (g + 1 + 1) - 1 := by omega
      rw [harith]
      simp only [Nat.add_sub_cancel]
      rw [List.range'_succ]

/-- C4 counterexample: with `max_retries = 3`, an operation that fails 3
times and would succeed on the 4th attempt.  The loop raises on the 3rd
failure (when `retry_count == max_retries`) after exactly 3 invocations and
2 logged retries; the success attempt predicted by the claim never runs. -/
theorem retry_counterexample :
    retryRun 3 (fun i => if i < 3 then Except.error i else Except.ok 99)
      = ⟨RetryOutcome.err 2, 3, [1, 2]⟩
    ∧ (retryRun 3 (fun i => if i < 3 then Except.error i else Except.ok 99)).outcome
      ≠ RetryOutcome.ok 99 := by
  refine ⟨by decide, by decide⟩

/-- C4 (amended): the loop invokes the operation at most `max_retries` times
in total (one initial attempt plus up to `max_retries - 1` retries, waiting
`2^k` seconds before retry `k`).  An operation failing `max_retries - 1`
times then succeeding returns that success after exactly `max_retries`
invocations with retries `1, ..., max_retries - 1` logged and no further
attempts; an operation failing on all `max_retries` attempts propagates the
last error unchanged. -/
theorem retryRun_spec (m : Nat) (op : Nat → Except ε α) (errOf : Nat → ε)
    (hm : 1 ≤ m) :
    ((∀ i, i + 1 < m → op i = Except.error (errOf i)) → ∀ a, op (m - 1) = Except.ok a →
      retryRun m op = ⟨RetryOutcome.ok a, m, List.range' 1 (m - 1)⟩)
    ∧ ((∀ i, i < m → op i = Except.error (errOf i)) →
      retryRun m op = ⟨RetryOutcome.err (errOf (m - 1)), m, List.range' 1 (m - 1)⟩) := by
  constructor
  · intro hfails a hok
    exact retryGo_ok op errOf a m 0 hm
      (fun i h1 h2 => hfails i (by omega)) (by simpa using hok)
  · intro hfails
    have h := retryGo_err op errOf m 0 hm (fun i h1 h2 => hfails i (by omega))
    simpa using h

/-- C4 witness: `max_retries = 3` with an operation failing attempts 0 and 1
and succeeding on attempt 2, and one failing all three attempts. -/
theorem retryRun_spec_witness :
    retryRun 3 (fun i => if i = 2 then Except.ok 7 else Except.error i)
      = ⟨RetryOutcome.ok 7, 3, [1, 2]⟩
    ∧ retryRun 3 (fun i => (Except.error i : Except Nat Nat))
      = ⟨RetryOutcome.err 2, 3, [1, 2]⟩ := by
  constructor
  · have h := (retryRun_spec 3 (fun i => if i = 2 then Except.ok 7 else Except.error i)
      (fun i => i) (by omega)).1
      (fun i hi => by
        match i with
        | 0 => rfl
        | 1 => rfl
        | n + 2 => exact absurd hi (by omega))
      7 rfl
    simpa using h
  · have h := (retryRun_spec 3 (fun i => (Except.error i : Except Nat Nat))
      (fun i => i) (by omega)).2 (fun i hi => rfl)
    simpa using h

/-- The run-level aggregate statistics (`total_stats`): total records flushed,
total batches flushed, and chunk-level error count. -/
structure RunStats where
  total_processed : Nat
  total_batches : Nat
  errors : Nat
deriving DecidableEq

/-- Componentwise sum of two run statistics. -/
def statsAdd (s t : RunStats) : RunStats :=
  ⟨s.total_processed + t.total_processed,
   s.total_batches + t.total_batches,
   s.errors + t.errors⟩

/-- One date chunk of a `process_orders` run: the pages successfully fetched,
and whether the following fetch fails (with retries exhausted, the exception
hits the per-chunk `except` block). -/
structure OrderChunk (α : Type) where
  pages : List (List α)
  fetchFails : Bool

/-- Batches the chunk flushes before its try block exits: on a fetch failure
only the mid-stream flushes already made; on success also the trailing flush
of the leftover buffer. -/
def orderChunkBatches (B : Nat) (c : OrderChunk α) : List (List α) :=
  if c.fetchFails then (paginate B c.pages).batches else processPages B c.pages

/-- The effect of one date chunk on `total_stats`: the flushed batches are
added, and the `except` branch adds one error on a chunk failure before the
loop continues. -/
def addChunk (B : Nat) (s : RunStats) (c : OrderChunk α) : RunStats :=
  ⟨s.total_processed + ((orderChunkBatches B c).map List.length).sum,
   s.total_batches + (orderChunkBatches B c).length,
   s.errors + if c.fetchFails then 1 else 0⟩

/-- `BatchProcessor.process_orders`: the for loop over date chunks, each
chunk's failure caught by the in-loop `except` which increments the error
counter and continues. -/
def process_orders (B : Nat) (chunks : List (OrderChunk α)) : RunStats :=
  chunks.foldl (addChunk B) ⟨0, 0, 0⟩

/-- One SKU chunk of a `process_inventory` run with an explicit `sku_list`:
either the fetch succeeds with this data, or it fails with retries
exhausted. -/
inductive SkuChunk where
  | ok (data : List Record)
  | fetchFails

/-- The SKU branch of `BatchProcessor.process_inventory`: the try block wraps
the WHOLE chunk loop.  A fetched chunk is written by
`_process_inventory_batch`, i.e. `replace_data(data, 'Inventory',
datetime.now())` (modeled with `now` for the timestamp and the running batch
count for the fresh batch id); only on a successful write are the chunk's
records and batch counted.  Any exception — a fetch failure with retries
exhausted, or the staging write, which on the Inventory table always raises
— jumps to the single `except`, increments the error counter once, and ends
the loop: the remaining chunks are never processed. -/
def invGo (now : Int) : TableState → RunStats → List SkuChunk →
    TableState × RunStats
  | st, s, [] => (st, s)
  | st, s, SkuChunk.fetchFails :: _ =>
      (st, ⟨s.total_processed, s.total_batches, s.errors + 1⟩)
  | st, s, SkuChunk.ok d :: rest =>
      match (replace_data_run st d "Inventory" now s.total_batches none).2 with
      | Except.ok _ =>
          invGo now (replace_data_run st d "Inventory" now s.total_batches none).1
            ⟨s.total_processed + d.length, s.total_batches + 1, s.errors⟩ rest
      | Except.error _ =>
          ((replace_data_run st d "Inventory" now s.total_batches none).1,
           ⟨s.total_processed, s.total_batches, s.errors + 1⟩)

/-- `BatchProcessor.process_inventory` over an explicit SKU list, against the
given Inventory table state. -/
def process_inventory (now : Int) (st : TableState) (chunks : List SkuChunk) :
    TableState × RunStats :=
  invGo now st ⟨0, 0, 0⟩ chunks

theorem addChunk_statsAdd (B : Nat) (s : RunStats) (c : OrderChunk α) :
    addChunk B s c = statsAdd s (addChunk B ⟨0, 0, 0⟩ c) := by
  simp [addChunk, statsAdd, Nat.add_assoc]

theorem statsAdd_assoc (s t u : RunStats) :
    statsAdd (statsAdd s t) u = statsAdd s (statsAdd t u) := by
  simp [statsAdd, Nat.add_assoc]

theorem foldl_addChunk_statsAdd (B : Nat) (chunks : List (OrderChunk α)) :
    ∀ s : RunStats,
      chunks.foldl (addChunk B) s = statsAdd s (chunks.foldl (addChunk B) ⟨0, 0, 0⟩) := by
  induction chunks with
  | nil => intro s; simp [statsAdd]
  | cons c cs ih =>
    intro s
    rw [List.foldl_cons, List.foldl_cons, ih (addChunk B s c),
      ih (addChunk B ⟨0, 0, 0⟩ c), addChunk_statsAdd B s c, statsAdd_assoc]

/-- An inventory record with SellerSKU "S1". -/
def recI : Record := ⟨[("SellerSKU", "S1")]⟩

/-- C7 counterexample: in `process_inventory` the first failing SKU chunk
ends the run.  Two fetch-failing chunks yield errors = 1, not 2 — the second
chunk is never reached, so a chunk failure does abort the remaining chunks.
Moreover even a chunk whose fetch succeeds errors out and ends the run: its
staging write is `replace_data(data, 'Inventory')`, which always raises on
the hardcoded AmazonOrderId column. -/
theorem inventory_chunk_abort_counterexample :
    (process_inventory 0 ⟨[], [], []⟩
        [SkuChunk.fetchFails, SkuChunk.fetchFails]).2 = ⟨0, 0, 1⟩
    ∧ (process_inventory 0 ⟨[], [], []⟩ [SkuChunk.ok [recI]]).2 = ⟨0, 0, 1⟩ := by
  refine ⟨rfl, by decide⟩

/-- C7 (amended): in `process_orders` the per-chunk `except` makes chunk
contributions independent — the run over appended chunk lists is the
componentwise sum of the runs, errors count exactly the failed chunks, and
an aggregate stats object is always returned.  In `process_inventory` the
try block wraps the whole SKU loop, so the FIRST failing chunk — whether its
fetch fails with retries exhausted, or its staging write raises, which on
the Inventory table it always does — adds one error and ends the run,
skipping every remaining chunk, though an aggregate stats object is still
returned. -/
theorem chunk_failure_policy (B : Nat) (cs1 cs2 : List (OrderChunk α))
    (rest : List SkuChunk) (s : RunStats) (st : TableState) (now : Int)
    (d : List Record) :
    process_orders B (cs1 ++ cs2)
      = statsAdd (process_orders B cs1) (process_orders B cs2)
    ∧ (process_orders B cs1).errors = (cs1.filter (fun c => c.fetchFails)).length
    ∧ (invGo now st s (SkuChunk.fetchFails :: rest)).2
      = ⟨s.total_processed, s.total_batches, s.errors + 1⟩
    ∧ (invGo now st s (SkuChunk.ok d :: rest)).2
      = ⟨s.total_processed, s.total_batches, s.errors + 1⟩ := by
  refine ⟨?_, ?_, rfl, ?_⟩
  · show (cs1 ++ cs2).foldl (addChunk B) ⟨0, 0, 0⟩ = _
    rw [List.foldl_append, foldl_addChunk_statsAdd B cs2]
    rfl
  · induction cs1 with
    | nil => rfl
    | cons c cs ih =>
      show ((c :: cs).foldl (addChunk B) ⟨0, 0, 0⟩).errors = _
      rw [List.foldl_cons, foldl_addChunk_statsAdd B cs]
      have ih2 : (cs.foldl (addChunk B) ⟨0, 0, 0⟩).errors
          = (cs.filter (fun c => c.fetchFails)).length := ih
      by_cases hc : c.fetchFails = true
      · simp only [statsAdd, addChunk, List.filter_cons, hc, if_true, List.length_cons]
        omega
      · simp only [Bool.not_eq_true] at hc
        simp only [statsAdd, addChunk, List.filter_cons, hc, Bool.false_eq_true,
          if_false]
        omega
  · have herr := (replace_inventory_always_fails st d now s.total_batches).1
    simp only [invGo, herr]

/-- Methods defined on `StagingHandler`, including those inherited from
`SQLServerHandler` (sql_staging_definitions.py, sql_handler.py). -/
def stagingHandlerMethods : List String :=
  ["initialize_staging", "archive_data", "get_last_processed_date",
   "record_processing_start", "record_processing_complete",
   "append_data", "replace_data", "get_staging_errors",
   "get_connection", "query_data", "execute_query", "execute_nonquery",
   "optimize_tables", "execute_stored_procedure", "bulk_insert"]

/-- `BatchProcessor.process_inventory_incremental`: its first statement
resolves and awaits `staging_handler.archive_inventory_data()` — before any
inventory fetch or staging write.  An unresolvable attribute raises
AttributeError, which the surrounding except block logs and re-raises; only
if the attribute resolves does the rest of the run (`process_inventory` in
REPLACE mode, abstracted as `restOfRun`) execute. -/
def process_inventory_incremental (methods : List String)
    (restOfRun : Unit → RunStats) : Except String RunStats :=
  if methods.contains "archive_inventory_data" then Except.ok (restOfRun ())
  else Except.error "AttributeError: archive_inventory_data"

/-- C8: `StagingHandler` defines no `archive_inventory_data` method, so every
invocation of `process_inventory_incremental` raises the attribute-lookup
failure before any inventory is fetched or written — the incremental REPLACE
entry point can never complete successfully. -/
theorem inventory_incremental_always_fails :
    stagingHandlerMethods.contains "archive_inventory_data" = false
    ∧ ∀ restOfRun : Unit → RunStats,
        process_inventory_incremental stagingHandlerMethods restOfRun
          = Except.error "AttributeError: archive_inventory_data" := by
  refine ⟨by decide, ?_⟩
  intro restOfRun
  show (if stagingHandlerMethods.contains "archive_inventory_data"
    then Except.ok (restOfRun ()) else _) = _
  rw [if_neg]
  intro h
  exact absurd h (by decide)

/-- The WHERE clause of the checkpoint query: `DataType = ? AND
Status = 'SUCCESS'`. -/
def matchesSuccess (dt : String) (c : ControlEntry) : Bool :=
  c.dataType == dt && c.status == "SUCCESS"

/-- `StagingHandler.get_last_processed_date`: `SELECT TOP 1 LastProcessedDate
... WHERE DataType = ? AND Status = 'SUCCESS' ORDER BY LastProcessedDate
DESC`, i.e. the greatest non-NULL LastProcessedDate among the matching rows
(SQL Server sorts NULLs last under DESC), or NULL/absent when there is
none. -/
def get_last_processed_date (control : List ControlEntry) (dt : String) :
    Option Int :=
  ((control.filter (matchesSuccess dt)).filterMap
    (fun c => c.lastProcessedDate)).max?

/-- `timedelta(days=30)` in seconds (datetimes are modeled as seconds). -/
def thirtyDays : Int := 30 * 86400

/-- The start-date choice of `process_orders_incremental`:
`if not last_processed: last_processed = datetime.now() - timedelta(days=30)`. -/
def ordersIncrementalStart (lastProcessed : Option Int) (now : Int) : Int :=
  lastProcessed.getD (now - thirtyDays)

/-- C9: `get_last_processed_date` returns the LastProcessedDate of the most
recent (greatest-dated) SUCCESS control entry for the data type, and an
absent value when no such entry exists, in which case the incremental order
flow starts from a fixed 30-day lookback window. -/
theorem get_last_processed_date_spec (control : List ControlEntry)
    (dt : String) (now : Int) :
    ((∀ c ∈ control, matchesSuccess dt c = false) →
      get_last_processed_date control dt = none
      ∧ ordersIncrementalStart (get_last_processed_date control dt) now
          = now - thirtyDays)
    ∧ (∀ d, get_last_processed_date control dt = some d →
        (∃ c ∈ control, matchesSuccess dt c = true ∧ c.lastProcessedDate = some d)
        ∧ (∀ c ∈ control, matchesSuccess dt c = true →
            ∀ d2, c.lastProcessedDate = some d2 → d2 ≤ d)
        ∧ ordersIncrementalStart (get_last_processed_date control dt) now = d) := by
  constructor
  · intro hnone
    have hfilter : control.filter (matchesSuccess dt) = [] :=
      List.filter_eq_nil_iff.mpr (fun c hc => by rw [hnone c hc]; exact Bool.false_ne_true)
    have hval : get_last_processed_date control dt = none := by
      unfold get_last_processed_date
      rw [hfilter]
      rfl
    exact ⟨hval, by rw [hval]; rfl⟩
  · intro d hd
    have hmem : d ∈ (control.filter (matchesSuccess dt)).filterMap
        (fun c => c.lastProcessedDate) :=
      List.max?_mem (fun a b => max_choice a b) hd
    have hub : ∀ x ∈ (control.filter (matchesSuccess dt)).filterMap
        (fun c => c.lastProcessedDate), x ≤ d :=
      (List.max?_le_iff (fun a b c => max_le_iff) hd).mp (le_refl d)
    obtain ⟨c, hcmem, hcd⟩ := List.mem_filterMap.mp hmem
    obtain ⟨hcctl, hcmatch⟩ := List.mem_filter.mp hcmem
    refine ⟨⟨c, hcctl, hcmatch, hcd⟩, ?_, by rw [hd]; rfl⟩
    intro c2 hc2 hm2 d2 hd2
    exact hub d2 (List.mem_filterMap.mpr ⟨c2, List.mem_filter.mpr ⟨hc2, hm2⟩, hd2⟩)

/-- A concrete ProcessingControl ledger: two SUCCESS Orders entries (dates
100 and 50), an ERROR Orders entry with a larger date, and a SUCCESS entry
of another data type. -/
def ctl0 : List ControlEntry :=
  [⟨"Orders", 0, some 100, some 5, "SUCCESS"⟩,
   ⟨"Orders", 1, some 50, some 2, "SUCCESS"⟩,
   ⟨"Orders", 2, some 200, some 0, "ERROR"⟩,
   ⟨"Inventory", 3, some 999, some 1, "SUCCESS"⟩]

/-- C9 witness: on `ctl0` the checkpoint for Orders is 100, carried by a
SUCCESS Orders entry; on an empty ledger the checkpoint is absent and the
incremental start falls back to now - 30 days. -/
theorem get_last_processed_date_spec_witness :
    (∃ c ∈ ctl0, matchesSuccess "Orders" c = true ∧ c.lastProcessedDate = some 100)
    ∧ (get_last_processed_date ([] : List ControlEntry) "Orders" = none
       ∧ ordersIncrementalStart
           (get_last_processed_date ([] : List ControlEntry) "Orders") 7
         = 7 - thirtyDays) :=
  ⟨((get_last_processed_date_spec ctl0 "Orders" 0).2 100 (by decide)).1,
   (get_last_processed_date_spec ([] : List ControlEntry) "Orders" 7).1
     (fun c hc => absurd hc (List.not_mem_nil c))⟩

/-- The rate limiter: configured calls per second and the per-endpoint
last-call-time dict (modeled as an association list; assignment prepends and
`lookup` reads the most recent binding).  Times are modeled as ℚ seconds. -/
structure RateLimiter where
  calls_per_second : ℚ
  last_call_time : List (String × ℚ)

/-- `self.minimum_interval = 1.0 / calls_per_second`. -/
def RateLimiter.minimum_interval (rl : RateLimiter) : ℚ :=
  1 / rl.calls_per_second

/-- `RateLimiter.acquire(endpoint)`: if the endpoint has a recorded last call
time and less than `minimum_interval` has elapsed, sleep the remaining
interval plus the random jitter; then record `datetime.now()` (the resume
instant, `now + wait`) as the endpoint's last call time.  Returns the
updated limiter and the wait actually slept; the function has no failure
path. -/
def RateLimiter.acquire (rl : RateLimiter) (endpoint : String)
    (now jitter : ℚ) : RateLimiter × ℚ :=
  match rl.last_call_time.lookup endpoint with
  | none =>
      ({ rl with last_call_time := (endpoint, now) :: rl.last_call_time }, 0)
  | some last =>
      if now - last < rl.minimum_interval then
        ({ rl with last_call_time :=
             (endpoint, now + (rl.minimum_interval - (now - last) + jitter))
               :: rl.last_call_time },
         rl.minimum_interval - (now - last) + jitter)
      else
        ({ rl with last_call_time := (endpoint, now) :: rl.last_call_time }, 0)

theorem acquire_none (rl : RateLimiter) (ep : String) (now jitter : ℚ)
    (hl : rl.last_call_time.lookup ep = none) :
    rl.acquire ep now jitter =
      ({ rl with last_call_time := (ep, now) :: rl.last_call_time }, 0) := by
  unfold RateLimiter.acquire
  rw [hl]

theorem acquire_some_wait (rl : RateLimiter) (ep : String) (now jitter last : ℚ)
    (hl : rl.last_call_time.lookup ep = some last)
    (hw : now - last < rl.minimum_interval) :
    rl.acquire ep now jitter =
      ({ rl with last_call_time :=
           (ep, now + (rl.minimum_interval - (now - last) + jitter))
             :: rl.last_call_time },
       rl.minimum_interval - (now - last) + jitter) := by
  unfold RateLimiter.acquire
  simp only [hl]
  rw [if_pos hw]

theorem acquire_some_nowait (rl : RateLimiter) (ep : String) (now jitter last : ℚ)
    (hl : rl.last_call_time.lookup ep = some last)
    (hw : rl.minimum_interval ≤ now - last) :
    rl.acquire ep now jitter =
      ({ rl with last_call_time := (ep, now) :: rl.last_call_time }, 0) := by
  unfold RateLimiter.acquire
  simp only [hl]
  rw [if_neg (not_lt.mpr hw)]

theorem lookup_cons_self (m : List (String × ℚ)) (k : String) (v : ℚ) :
    ((k, v) :: m).lookup k = some v := by
  simp [List.lookup]

theorem lookup_cons_ne (m : List (String × ℚ)) (k k2 : String) (v : ℚ)
    (h : k2 ≠ k) : ((k, v) :: m).lookup k2 = m.lookup k2 := by
  have hb : (k2 == k) = false := beq_eq_false_iff_ne.mpr h
  simp [List.lookup, hb]

/-- C10: `acquire(key)` never waits on the first call for a key; otherwise it
suspends the caller exactly until at least `minimum_interval =
1/calls_per_second` has elapsed since the last acquire returned for that
key, waiting at most the computed remainder plus the ≤ 0.1s jitter; it then
records the resume instant as the key's new last-call time; state for other
keys is untouched; and it is a total function (no failure path). -/
theorem acquire_spec (rl : RateLimiter) (ep : String) (now jitter : ℚ)
    (hj0 : 0 ≤ jitter) (hj1 : jitter ≤ 1 / 10) :
    (rl.last_call_time.lookup ep = none → (rl.acquire ep now jitter).2 = 0)
    ∧ (∀ last, rl.last_call_time.lookup ep = some last →
        rl.minimum_interval ≤ now + (rl.acquire ep now jitter).2 - last
        ∧ (rl.acquire ep now jitter).2
            ≤ max 0 (rl.minimum_interval - (now - last)) + 1 / 10)
    ∧ (rl.acquire ep now jitter).1.last_call_time.lookup ep
        = some (now + (rl.acquire ep now jitter).2)
    ∧ (∀ ep2, ep2 ≠ ep →
        (rl.acquire ep now jitter).1.last_call_time.lookup ep2
          = rl.last_call_time.lookup ep2)
    ∧ (rl.acquire ep now jitter).1.calls_per_second = rl.calls_per_second := by
  cases hl : rl.last_call_time.lookup ep with
  | none =>
    rw [acquire_none rl ep now jitter hl]
    refine ⟨fun _ => rfl, ?_, ?_, ?_, rfl⟩
    · intro last hlast
      exact Option.noConfusion hlast
    · show ((ep, now) :: rl.last_call_time).lookup ep = some (now + 0)
      rw [lookup_cons_self]
      norm_num
    · intro ep2 hne
      exact lookup_cons_ne _ _ _ _ hne
  | some last =>
    by_cases hwait : now - last < rl.minimum_interval
    · rw [acquire_some_wait rl ep now jitter last hl hwait]
      refine ⟨?_, ?_, ?_, ?_, rfl⟩
      · intro hc
        exact Option.noConfusion hc
      · intro last2 hlast2
        injection hlast2 with hlast2
        subst hlast2
        constructor
        · show rl.minimum_interval
            ≤ now + (rl.minimum_interval - (now - last) + jitter) - last
          linarith
        · have hmax : rl.minimum_interval - (now - last)
              ≤ max 0 (rl.minimum_interval - (now - last)) :=
            le_max_right _ _
          show rl.minimum_interval - (now - last) + jitter
            ≤ max 0 (rl.minimum_interval - (now - last)) + 1 / 10
          linarith
      · exact lookup_cons_self _ _ _
      · intro ep2 hne
        exact lookup_cons_ne _ _ _ _ hne
    · rw [acquire_some_nowait rl ep now jitter last hl (not_lt.mp hwait)]
      refine ⟨?_, ?_, ?_, ?_, rfl⟩
      · intro hc
        exact Option.noConfusion hc
      · intro last2 hlast2
        injection hlast2 with hlast2
        subst hlast2
        constructor
        · show rl.minimum_interval ≤ now + 0 - last
          have hge := not_lt.mp hwait
          linarith
        · have hmax : (0 : ℚ) ≤ max 0 (rl.minimum_interval - (now - last)) :=
            le_max_left _ _
          show (0 : ℚ) ≤ max 0 (rl.minimum_interval - (now - last)) + 1 / 10
          linarith
      · show ((ep, now) :: rl.last_call_time).lookup ep = some (now + 0)
        rw [lookup_cons_self]
        norm_num
      · intro ep2 hne
        exact lookup_cons_ne _ _ _ _ hne

/-- A rate limiter at 2 calls/second whose "orders" endpoint was last
released at time 0. -/
def rl0 : RateLimiter := ⟨2, [("orders", 0)]⟩

/-- C10 witness: acquiring "orders" on `rl0` at time 1/4 with jitter 1/20
resumes only once the 1/2-second minimum interval has elapsed, and waits at
most the remaining interval plus 0.1s. -/
theorem acquire_spec_witness :
    rl0.minimum_interval ≤ 1/4 + (rl0.acquire "orders" (1/4) (1/20)).2 - 0
    ∧ (rl0.acquire "orders" (1/4) (1/20)).2
        ≤ max 0 (rl0.minimum_interval - (1/4 - 0)) + 1 / 10 :=
  (acquire_spec rl0 "orders" (1/4) (1/20) (by norm_num) (by norm_num)).2.1 0
    (lookup_cons_self [] "orders" 0)

end SpApi
